import Mathlib

/-!
Verification of the `currant` locking primitives (src/mutex.rs, src/try_mutex.rs).

The Rust code is shallowly embedded as follows.

* A `Mutex<T>` value (`locked: AtomicBool`, `value: UnsafeCell<T>`) becomes the
  record `MutexState α` with a `Bool` flag and the protected payload.
* The two atomic read-modify-write instructions the code uses,
  `AtomicBool::fetch_or` (acquisition) and `AtomicBool::fetch_and` (release),
  become pure functions returning the observed prior value together with the
  updated state.  Memory-ordering arguments (`Acquire`, `Release`, `AcqRel`)
  have no content in a sequential embedding and are dropped.
* The blocking acquisition loops (`spin_lock`, `yield_lock`,
  `exp_backoff_lock`) each repeat the same test-and-set; the flag value the
  k-th attempt observes is determined by interference from other threads, which
  we abstract as a trace `env : Nat → Bool` (the prior value returned by the
  k-th `fetch_or`).  The loops are given fuel (a bound on the number of
  attempts); running out of fuel models "still waiting", not an error.
  Each failed attempt records the waiting action the strategy performs
  (nothing, `thread::yield_now`, or `thread::sleep`), so the strategies can be
  compared both on outcome and on waiting cost.
* `TryMutex<T>` (src/try_mutex.rs) is a separate type in the source with no
  shared base, so it is embedded as its own record `TryMutexState α` with its
  own operations, mirroring the duplication in the source.
* Guard destruction (`Drop for MutexGuard` / `Drop for TryMutexGuard`)
  performs `locked.fetch_and(false, Release)`; it becomes `MutexGuard.drop` /
  `TryMutexGuard.drop` on the lock state.
-/

namespace Currant

/-- State of a `Mutex<T>` (src/mutex.rs lines 6-9): the atomic flag `locked`
and the protected payload `value`. -/
structure MutexState (α : Type) where
  locked : Bool
  value : α
deriving DecidableEq, Repr

/-- `AtomicBool::fetch_or`: returns the prior flag value and the state with the
flag or-ed with `b`. -/
def MutexState.fetchOr {α : Type} (s : MutexState α) (b : Bool) :
    Bool × MutexState α :=
  (s.locked, { s with locked := s.locked || b })

/-- `AtomicBool::fetch_and`: returns the prior flag value and the state with the
flag and-ed with `b`. -/
def MutexState.fetchAnd {α : Type} (s : MutexState α) (b : Bool) :
    Bool × MutexState α :=
  (s.locked, { s with locked := s.locked && b })

/-- A `MutexGuard` as handed out by a successful acquisition; `value` is the
protected payload it dereferences to. -/
structure MutexGuard (α : Type) where
  value : α
deriving DecidableEq, Repr

/-- `Mutex::new` (src/mutex.rs lines 36-41): flag initialized to `false`,
payload owned by the lock. -/
def Mutex.new {α : Type} (value : α) : MutexState α :=
  { locked := false, value := value }

/-- `Mutex::try_lock` (src/mutex.rs lines 73-79): one `fetch_or(true)`; a guard
exactly when the observed prior value was `false`. -/
def Mutex.try_lock {α : Type} (s : MutexState α) :
    Option (MutexGuard α) × MutexState α :=
  let r := s.fetchOr true
  if r.1 = false then (some { value := r.2.value }, r.2) else (none, r.2)

/-- `Drop for MutexGuard` (src/mutex.rs lines 29-33):
`locked.fetch_and(false, Release)`. -/
def MutexGuard.drop {α : Type} (s : MutexState α) : MutexState α :=
  (s.fetchAnd false).2

/-- `DerefMut for MutexGuard` (src/mutex.rs lines 23-27): a write through the
guard's mutable access stores `v` into the protected cell. -/
def MutexGuard.writeThrough {α : Type} (s : MutexState α) (v : α) :
    MutexState α :=
  { s with value := v }

/-- The per-failed-attempt waiting action of a blocking strategy: nothing
(spin), `std::thread::yield_now()`, or `std::thread::sleep` for the given
number of nanoseconds. -/
inductive WaitAction where
  | yieldNow : WaitAction
  | sleep : Nat → WaitAction
deriving DecidableEq, Repr

/-- `Duration::from_millis` in nanoseconds. -/
def millisToNanos (m : Nat) : Nat :=
  m * 1000000

/-- The common acquisition loop of `spin_lock`, `yield_lock` and
`exp_backoff_lock` (src/mutex.rs lines 43-71).  `env k` is the flag value the
k-th `fetch_or(true)` observes (interference by other threads decides it); the
attempt leaves the flag set.  On a prior value `false` the loop returns the
resulting lock state and the list of waits performed so far; on `true` it
performs the strategy's wait (`step` maps the strategy's mutable wait state to
the action performed and the next wait state) and retries.  `fuel` bounds the
number of attempts; `none` means the loop is still waiting after `fuel`
attempts. -/
def acquireLoop {α σ : Type} (step : σ → Option WaitAction × σ)
    (env : Nat → Bool) (s : MutexState α) :
    Nat → Nat → σ → List WaitAction → Option (MutexState α × List WaitAction)
  | 0, _, _, _ => none
  | fuel + 1, k, w, acc =>
    let r := MutexState.fetchOr { s with locked := env k } true
    if r.1 = false then
      some (r.2, acc)
    else
      let a := step w
      acquireLoop step env s fuel (k + 1) a.2 (acc ++ a.1.toList)

/-- `Mutex::spin_lock` (src/mutex.rs lines 43-49): retry with no pause. -/
def Mutex.spin_lock {α : Type} (env : Nat → Bool) (s : MutexState α)
    (fuel : Nat) : Option (MutexState α × List WaitAction) :=
  acquireLoop (fun w => (none, w)) env s fuel 0 () []

/-- `Mutex::yield_lock` (src/mutex.rs lines 51-59): `yield_now` after every
failed attempt. -/
def Mutex.yield_lock {α : Type} (env : Nat → Bool) (s : MutexState α)
    (fuel : Nat) : Option (MutexState α × List WaitAction) :=
  acquireLoop (fun w => (some WaitAction.yieldNow, w)) env s fuel 0 () []

/-- `Mutex::exp_backoff_lock` (src/mutex.rs lines 61-71): sleep for `backoff`
after every failed attempt, starting at `Duration::from_millis(1)` and doubling
(`backoff *= 2`). -/
def Mutex.exp_backoff_lock {α : Type} (env : Nat → Bool) (s : MutexState α)
    (fuel : Nat) : Option (MutexState α × List WaitAction) :=
  acquireLoop (fun d => (some (WaitAction.sleep d), d * 2)) env s fuel 0
    (millisToNanos 1) []

/-- The interference-free flag trace for a lock state `s`: the first attempt
observes the actual flag; after that attempt the flag has been set by the
caller's own `fetch_or` and no other thread clears it. -/
def noInterferenceEnv {α : Type} (s : MutexState α) : Nat → Bool :=
  fun k => if k = 0 then s.locked else true

/-- State of a `TryMutex<T>` (src/try_mutex.rs lines 5-8): a separate type with
the same flag/cell shape, no shared base with `Mutex`. -/
structure TryMutexState (α : Type) where
  locked : Bool
  value : α
deriving DecidableEq, Repr

/-- `AtomicBool::fetch_or` on the `TryMutex` flag. -/
def TryMutexState.fetchOr {α : Type} (s : TryMutexState α) (b : Bool) :
    Bool × TryMutexState α :=
  (s.locked, { s with locked := s.locked || b })

/-- `AtomicBool::fetch_and` on the `TryMutex` flag. -/
def TryMutexState.fetchAnd {α : Type} (s : TryMutexState α) (b : Bool) :
    Bool × TryMutexState α :=
  (s.locked, { s with locked := s.locked && b })

/-- A `TryMutexGuard`; `value` is the protected payload it dereferences to. -/
structure TryMutexGuard (α : Type) where
  value : α
deriving DecidableEq, Repr

/-- `TryMutex::new` (src/try_mutex.rs lines 35-40). -/
def TryMutex.new {α : Type} (value : α) : TryMutexState α :=
  { locked := false, value := value }

/-- `TryMutex::try_lock` (src/try_mutex.rs lines 42-48): one `fetch_or(true)`;
a guard exactly when the observed prior value was `false`. -/
def TryMutex.try_lock {α : Type} (s : TryMutexState α) :
    Option (TryMutexGuard α) × TryMutexState α :=
  let r := s.fetchOr true
  if r.1 = false then (some { value := r.2.value }, r.2) else (none, r.2)

/-- `Drop for TryMutexGuard` (src/try_mutex.rs lines 28-32). -/
def TryMutexGuard.drop {α : Type} (s : TryMutexState α) : TryMutexState α :=
  (s.fetchAnd false).2

/-- The field-wise correspondence between the full lock's state and the reduced
lock's state (both are a flag plus a payload). -/
def toTry {α : Type} (s : MutexState α) : TryMutexState α :=
  { locked := s.locked, value := s.value }

/-- On success the acquisition loop always returns the lock state with the flag
set and the payload untouched, whatever the strategy did while waiting. -/
theorem acquireLoop_some_state {α σ : Type} (step : σ → Option WaitAction × σ)
    (env : Nat → Bool) (s : MutexState α) (fuel k : Nat) (w : σ)
    (acc ws : List WaitAction) (st : MutexState α)
    (h : acquireLoop step env s fuel k w acc = some (st, ws)) :
    st = { locked := true, value := s.value } := by
  induction fuel generalizing k w acc ws with
  | zero => simp [acquireLoop] at h
  | succ fuel ih =>
    rw [acquireLoop] at h
    by_cases he : env k = false
    · simp [MutexState.fetchOr, he] at h
      exact h.1.symm
    · simp [MutexState.fetchOr, he] at h
      exact ih _ _ _ _ h

/-- The acquisition loop succeeds within `fuel` attempts exactly when one of
the next `fuel` observations of the flag is `false`; the waiting strategy and
its state are irrelevant to success. -/
theorem acquireLoop_isSome_iff {α σ : Type} (step : σ → Option WaitAction × σ)
    (env : Nat → Bool) (s : MutexState α) (fuel k : Nat) (w : σ)
    (acc : List WaitAction) :
    (acquireLoop step env s fuel k w acc).isSome = true ↔
      ∃ i, i < fuel ∧ env (k + i) = false := by
  induction fuel generalizing k w acc with
  | zero => simp [acquireLoop]
  | succ fuel ih =>
    rw [acquireLoop]
    by_cases he : env k = false
    · simp [MutexState.fetchOr, he]
      exact ⟨0, Nat.succ_pos fuel, by simp [he]⟩
    · simp only [MutexState.fetchOr, he]
      rw [if_neg (by simp [he]), ih]
      constructor
      · rintro ⟨i, hi, hf⟩
        refine ⟨i + 1, by omega, ?_⟩
        have hk : k + (i + 1) = k + 1 + i := by omega
        rw [hk]
        exact hf
      · rintro ⟨i, hi, hf⟩
        cases i with
        | zero =>
          simp at hf
          exact absurd hf he
        | succ j =>
          refine ⟨j, by omega, ?_⟩
          have hk : k + 1 + j = k + (j + 1) := by omega
          rw [hk]
          exact hf

/-- The waits performed by the exponential-backoff loop: starting from current
backoff `d`, the waits recorded after `acc` are `sleep d, sleep (2*d),
sleep (4*d), ...` — doubling after every failed attempt, with no cap. -/
theorem acquireLoop_backoff_waits {α : Type} (env : Nat → Bool)
    (s : MutexState α) (fuel k d : Nat) (acc ws : List WaitAction)
    (st : MutexState α)
    (h : acquireLoop (fun d => (some (WaitAction.sleep d), d * 2)) env s fuel k
        d acc = some (st, ws)) :
    ∃ m, ws = acc ++ (List.range m).map (fun i => WaitAction.sleep (d * 2 ^ i)) := by
  induction fuel generalizing k d acc with
  | zero => simp [acquireLoop] at h
  | succ fuel ih =>
    rw [acquireLoop] at h
    by_cases he : env k = false
    · simp [MutexState.fetchOr, he] at h
      exact ⟨0, by simp [h.2.symm]⟩
    · simp [MutexState.fetchOr, he] at h
      obtain ⟨m, hm⟩ := ih (k + 1) (d * 2) (acc ++ [WaitAction.sleep d]) h
      refine ⟨m + 1, ?_⟩
      have harg : (fun i => WaitAction.sleep (d * 2 * 2 ^ i)) =
          ((fun i => WaitAction.sleep (d * 2 ^ i)) ∘ Nat.succ) := by
        funext i
        simp [Function.comp, pow_succ]
        ring
      rw [hm, List.range_succ_eq_map, List.map_cons, List.map_map, ← harg]
      simp

/-- Claim C7: `new(value)` takes ownership of the given value and returns a
lock whose flag is `false` (unlocked) and whose payload equals the given value,
for both the full and the reduced variant; being a total function, it has no
failure mode. -/
theorem new_initializes {α : Type} (v : α) :
    Mutex.new v = { locked := false, value := v } ∧
    TryMutex.new v = { locked := false, value := v } :=
  ⟨rfl, rfl⟩

/-- Claim C2: `try_lock` is exactly one `fetch_or(true)` test-and-set (the
first conjunct is the definitional unfolding, so it neither loops nor blocks);
it returns a guard iff the observed prior flag value was `false` (free) and
returns no guard iff the prior value was `true` (already held), for both
variants. -/
theorem try_lock_single_attempt {α : Type} (s : MutexState α)
    (t : TryMutexState α) :
    Mutex.try_lock s =
      (if (s.fetchOr true).1 = false then
         some { value := (s.fetchOr true).2.value } else none,
       (s.fetchOr true).2) ∧
    ((Mutex.try_lock s).1.isSome ↔ s.locked = false) ∧
    ((Mutex.try_lock s).1 = none ↔ s.locked = true) ∧
    TryMutex.try_lock t =
      (if (t.fetchOr true).1 = false then
         some { value := (t.fetchOr true).2.value } else none,
       (t.fetchOr true).2) ∧
    ((TryMutex.try_lock t).1.isSome ↔ t.locked = false) ∧
    ((TryMutex.try_lock t).1 = none ↔ t.locked = true) := by
  refine ⟨?_, ?_, ?_, ?_, ?_, ?_⟩ <;>
    cases hs : s.locked <;> cases ht : t.locked <;>
      simp [Mutex.try_lock, TryMutex.try_lock, MutexState.fetchOr,
        TryMutexState.fetchOr, hs, ht]

/-- Claim C3: guard destruction always clears the flag back to `false`
(unlocked), and on the resulting state the very next `try_lock` succeeds and
returns a guard — for both the full and the reduced variant, from any lock
state a live guard can see. -/
theorem guard_drop_unlocks {α : Type} (s : MutexState α) (t : TryMutexState α) :
    (MutexGuard.drop s).locked = false ∧
    (Mutex.try_lock (MutexGuard.drop s)).1.isSome = true ∧
    (TryMutexGuard.drop t).locked = false ∧
    (TryMutex.try_lock (TryMutexGuard.drop t)).1.isSome = true := by
  refine ⟨?_, ?_, ?_, ?_⟩ <;>
    simp [MutexGuard.drop, TryMutexGuard.drop, Mutex.try_lock,
      TryMutex.try_lock, MutexState.fetchAnd, TryMutexState.fetchAnd,
      MutexState.fetchOr, TryMutexState.fetchOr]

/-- Claim C5: the reduced variant's `try_lock` is equivalent in contract to the
full lock's `try_lock` under the field-wise correspondence `toTry`: both
succeed exactly when the flag was observed `false` (setting it to `true`) and
fail exactly when it was observed `true`, they reach corresponding states,
the guards dereference to the same payload, and guard destruction (release)
acts identically. -/
theorem try_variants_equivalent {α : Type} (s : MutexState α) :
    ((Mutex.try_lock s).1.isSome ↔ s.locked = false) ∧
    ((TryMutex.try_lock (toTry s)).1.isSome ↔ s.locked = false) ∧
    (Mutex.try_lock s).2.locked = true ∧
    (TryMutex.try_lock (toTry s)).2.locked = true ∧
    toTry (Mutex.try_lock s).2 = (TryMutex.try_lock (toTry s)).2 ∧
    (Mutex.try_lock s).1.map MutexGuard.value =
      (TryMutex.try_lock (toTry s)).1.map TryMutexGuard.value ∧
    toTry (MutexGuard.drop s) = TryMutexGuard.drop (toTry s) := by
  cases hs : s.locked <;>
    simp [Mutex.try_lock, TryMutex.try_lock, MutexGuard.drop,
      TryMutexGuard.drop, MutexState.fetchOr, TryMutexState.fetchOr,
      MutexState.fetchAnd, TryMutexState.fetchAnd, toTry, hs]

/-- Claim C4: the three blocking strategies are interchangeable in outcome:
whenever `spin_lock` acquires within some number of attempts under an
interference trace `env`, `yield_lock` and `exp_backoff_lock` acquire under
the same trace and bound, reaching the identical final lock state — flag set,
payload unchanged — and thus a guard to the same exclusive access; they differ
only in the recorded waiting cost. -/
theorem strategy_equivalence {α : Type} (env : Nat → Bool) (s : MutexState α)
    (fuel : Nat) (st : MutexState α) (ws : List WaitAction)
    (h : Mutex.spin_lock env s fuel = some (st, ws)) :
    st = { locked := true, value := s.value } ∧
    (∃ ws2, Mutex.yield_lock env s fuel = some (st, ws2)) ∧
    (∃ ws3, Mutex.exp_backoff_lock env s fuel = some (st, ws3)) := by
  have hst := acquireLoop_some_state (fun w => (none, w)) env s fuel 0 () [] ws
    st h
  have hsome : (Mutex.spin_lock env s fuel).isSome = true := by
    rw [h]
    rfl
  rw [Mutex.spin_lock, acquireLoop_isSome_iff] at hsome
  refine ⟨hst, ?_, ?_⟩
  · have h2 : (Mutex.yield_lock env s fuel).isSome = true := by
      rw [Mutex.yield_lock, acquireLoop_isSome_iff]
      exact hsome
    obtain ⟨⟨st2, ws2⟩, h2e⟩ := Option.isSome_iff_exists.mp h2
    have hst2 := acquireLoop_some_state (fun w => (some WaitAction.yieldNow, w))
      env s fuel 0 () [] ws2 st2 h2e
    exact ⟨ws2, by rw [h2e, hst2, hst]⟩
  · have h3 : (Mutex.exp_backoff_lock env s fuel).isSome = true := by
      rw [Mutex.exp_backoff_lock, acquireLoop_isSome_iff]
      exact hsome
    obtain ⟨⟨st3, ws3⟩, h3e⟩ := Option.isSome_iff_exists.mp h3
    have hst3 := acquireLoop_some_state
      (fun d => (some (WaitAction.sleep d), d * 2)) env s fuel 0
      (millisToNanos 1) [] ws3 st3 h3e
    exact ⟨ws3, by rw [h3e, hst3, hst]⟩

/-- Witness for C4 at a concrete input: an unlocked lock, one attempt. -/
theorem strategy_equivalence_witness :
    ({ locked := true, value := (3 : Nat) } : MutexState Nat) =
      { locked := true, value := (Mutex.new (3 : Nat)).value } ∧
    (∃ ws2, Mutex.yield_lock (fun _ => false) (Mutex.new (3 : Nat)) 1 =
      some ({ locked := true, value := (3 : Nat) }, ws2)) ∧
    (∃ ws3, Mutex.exp_backoff_lock (fun _ => false) (Mutex.new (3 : Nat)) 1 =
      some ({ locked := true, value := (3 : Nat) }, ws3)) :=
  strategy_equivalence (fun _ => false) (Mutex.new 3) 1
    { locked := true, value := 3 } [] rfl

/-- Claim C6: in `exp_backoff_lock` the sleep performed after the n-th failed
attempt (n counted from 1) is exactly `2 ^ (n - 1)` milliseconds: the backoff
starts at `Duration::from_millis(1)` and doubles after every failed attempt,
with no upper cap. -/
theorem exp_backoff_doubling {α : Type} (env : Nat → Bool) (s : MutexState α)
    (fuel : Nat) (st : MutexState α) (ws : List WaitAction) (n : Nat)
    (h : Mutex.exp_backoff_lock env s fuel = some (st, ws))
    (hn : 1 ≤ n) (hlen : n ≤ ws.length) :
    ws[n - 1]? = some (WaitAction.sleep (millisToNanos (2 ^ (n - 1)))) := by
  obtain ⟨m, hm⟩ := acquireLoop_backoff_waits env s fuel 0 (millisToNanos 1) []
    ws st h
  subst hm
  simp only [List.nil_append] at hlen ⊢
  rw [List.length_map, List.length_range] at hlen
  have hlt : n - 1 < m := by omega
  rw [List.getElem?_map, List.getElem?_range hlt]
  simp only [millisToNanos, Option.map_some', Option.some.injEq,
    WaitAction.sleep.injEq]
  ring

/-- Witness for C6 at a concrete input: one failed attempt, then success; the
first (and only) sleep is 1 millisecond. -/
theorem exp_backoff_doubling_witness :
    [WaitAction.sleep 1000000][1 - 1]? =
      some (WaitAction.sleep (millisToNanos (2 ^ (1 - 1)))) :=
  exp_backoff_doubling (fun k => k == 0) (Mutex.new (7 : Nat)) 2
    { locked := true, value := 7 } [WaitAction.sleep 1000000] 1 rfl
    (by decide) (by decide)

/-- Claim C8: contention is never signalled by an error.  A failed `try_lock`
(full or reduced) yields the mere absence of a guard (`none`, no error
payload), and for the blocking variants any number of failed attempts only
delays the return: as soon as some attempt observes the flag free, every
strategy returns a guard. -/
theorem contention_no_error {α : Type} (s : MutexState α) (t : TryMutexState α)
    (env : Nat → Bool) (k fuel : Nat) :
    (s.locked = true → (Mutex.try_lock s).1 = none) ∧
    (t.locked = true → (TryMutex.try_lock t).1 = none) ∧
    (env k = false → k < fuel →
      (Mutex.spin_lock env s fuel).isSome = true ∧
      (Mutex.yield_lock env s fuel).isSome = true ∧
      (Mutex.exp_backoff_lock env s fuel).isSome = true) := by
  refine ⟨?_, ?_, ?_⟩
  · intro hs
    simp [Mutex.try_lock, MutexState.fetchOr, hs]
  · intro ht
    simp [TryMutex.try_lock, TryMutexState.fetchOr, ht]
  · intro hf hk
    refine ⟨?_, ?_, ?_⟩
    · rw [Mutex.spin_lock, acquireLoop_isSome_iff]
      exact ⟨k, hk, by simp [hf]⟩
    · rw [Mutex.yield_lock, acquireLoop_isSome_iff]
      exact ⟨k, hk, by simp [hf]⟩
    · rw [Mutex.exp_backoff_lock, acquireLoop_isSome_iff]
      exact ⟨k, hk, by simp [hf]⟩

/-- Witness for C8 at a concrete input: a held lock, and a trace whose second
attempt finds the flag free. -/
theorem contention_no_error_witness :
    (Mutex.try_lock { locked := true, value := (0 : Nat) }).1 = none ∧
    (TryMutex.try_lock { locked := true, value := (0 : Nat) }).1 = none ∧
    (Mutex.spin_lock (fun k => k == 0)
      { locked := true, value := (0 : Nat) } 2).isSome = true ∧
    (Mutex.yield_lock (fun k => k == 0)
      { locked := true, value := (0 : Nat) } 2).isSome = true ∧
    (Mutex.exp_backoff_lock (fun k => k == 0)
      { locked := true, value := (0 : Nat) } 2).isSome = true := by
  obtain ⟨h1, h2, h3⟩ := contention_no_error
    { locked := true, value := (0 : Nat) }
    { locked := true, value := (0 : Nat) } (fun k => k == 0) 1 2
  obtain ⟨h4, h5, h6⟩ := h3 (by decide) (by decide)
  exact ⟨h1 rfl, h2 rfl, h4, h5, h6⟩

/-- Claim C9: on an unlocked lock with no interference, each blocking
acquisition succeeds on the very first test-and-set attempt (fuel 1 suffices)
with zero yields and zero sleeps: the acquisition loops terminate immediately
and return a guard to the lock with the flag set and the payload unchanged. -/
theorem unlocked_acquire_immediate {α : Type} (s : MutexState α)
    (h : s.locked = false) :
    Mutex.spin_lock (noInterferenceEnv s) s 1 =
      some ({ locked := true, value := s.value }, []) ∧
    Mutex.yield_lock (noInterferenceEnv s) s 1 =
      some ({ locked := true, value := s.value }, []) ∧
    Mutex.exp_backoff_lock (noInterferenceEnv s) s 1 =
      some ({ locked := true, value := s.value }, []) := by
  refine ⟨?_, ?_, ?_⟩ <;>
    simp [Mutex.spin_lock, Mutex.yield_lock, Mutex.exp_backoff_lock,
      acquireLoop, noInterferenceEnv, MutexState.fetchOr, h]

/-- Witness for C9 at a concrete input: a freshly created lock. -/
theorem unlocked_acquire_immediate_witness :
    Mutex.spin_lock (noInterferenceEnv (Mutex.new (0 : Nat)))
      (Mutex.new (0 : Nat)) 1 = some ({ locked := true, value := 0 }, []) ∧
    Mutex.yield_lock (noInterferenceEnv (Mutex.new (0 : Nat)))
      (Mutex.new (0 : Nat)) 1 = some ({ locked := true, value := 0 }, []) ∧
    Mutex.exp_backoff_lock (noInterferenceEnv (Mutex.new (0 : Nat)))
      (Mutex.new (0 : Nat)) 1 = some ({ locked := true, value := 0 }, []) :=
  unlocked_acquire_immediate (Mutex.new 0) rfl

/-- Claim C10: every acquisition operation (including a failed `try_lock`) and
guard destruction leaves the protected payload unchanged — the flag is the
only field they touch, since the state has exactly the two fields — and a
write through the guard's mutable access does modify it. -/
theorem frame_preservation {α : Type} (s : MutexState α) (t : TryMutexState α)
    (env : Nat → Bool) (fuel : Nat) (st : MutexState α) (ws : List WaitAction)
    (v : α) :
    (Mutex.try_lock s).2.value = s.value ∧
    (MutexGuard.drop s).value = s.value ∧
    (TryMutex.try_lock t).2.value = t.value ∧
    (TryMutexGuard.drop t).value = t.value ∧
    (Mutex.spin_lock env s fuel = some (st, ws) → st.value = s.value) ∧
    (Mutex.yield_lock env s fuel = some (st, ws) → st.value = s.value) ∧
    (Mutex.exp_backoff_lock env s fuel = some (st, ws) → st.value = s.value) ∧
    (MutexGuard.writeThrough s v).value = v := by
  refine ⟨?_, rfl, ?_, rfl, ?_, ?_, ?_, rfl⟩
  · cases hs : s.locked <;>
      simp [Mutex.try_lock, MutexState.fetchOr, hs]
  · cases ht : t.locked <;>
      simp [TryMutex.try_lock, TryMutexState.fetchOr, ht]
  · intro h
    rw [acquireLoop_some_state (fun w => (none, w)) env s fuel 0 () [] ws st h]
  · intro h
    rw [acquireLoop_some_state (fun w => (some WaitAction.yieldNow, w)) env s
      fuel 0 () [] ws st h]
  · intro h
    rw [acquireLoop_some_state (fun d => (some (WaitAction.sleep d), d * 2))
      env s fuel 0 (millisToNanos 1) [] ws st h]

/-- Witness for C10 at a concrete input: an unlocked lock, one attempt. -/
theorem frame_preservation_witness :
    (Mutex.try_lock { locked := false, value := (5 : Nat) }).2.value = 5 ∧
    ({ locked := true, value := (5 : Nat) } : MutexState Nat).value = 5 ∧
    (MutexGuard.writeThrough { locked := false, value := (5 : Nat) }
      9).value = 9 := by
  obtain ⟨h1, h2, h3, h4, h5, h6, h7, h8⟩ :=
    frame_preservation { locked := false, value := (5 : Nat) }
      { locked := false, value := (5 : Nat) } (fun _ => false) 1
      { locked := true, value := (5 : Nat) } [] 9
  exact ⟨h1, h5 rfl, h8⟩

/-- A full lock together with the number of currently live guards on it — the
observable that invariants I2/I3 speak about. -/
structure SysState (α : Type) where
  lock : MutexState α
  guards : Nat
deriving DecidableEq, Repr

/-- The atomic state change of one test-and-set attempt of a blocking
acquisition loop (`locked.fetch_or(true, Acquire)`, src/mutex.rs lines 45, 53,
64): the flag is left set, and a new guard becomes live exactly when the
observed prior value was `false`. -/
def acquireAttempt {α : Type} (s : SysState α) : SysState α :=
  let r := s.lock.fetchOr true
  { lock := r.2,
    guards := if r.1 = false then s.guards + 1 else s.guards }

/-- One atomic step of the full lock: a `try_lock` call, one iteration
(successful or failed) of one of the three blocking acquisition loops, or the
destruction of a live guard. -/
inductive Step {α : Type} : SysState α → SysState α → Prop where
  | try_lock_call (s : SysState α) :
      Step s { lock := (Mutex.try_lock s.lock).2,
               guards := if (Mutex.try_lock s.lock).1.isSome then s.guards + 1
                         else s.guards }
  | spin_lock_attempt (s : SysState α) : Step s (acquireAttempt s)
  | yield_lock_attempt (s : SysState α) : Step s (acquireAttempt s)
  | exp_backoff_lock_attempt (s : SysState α) : Step s (acquireAttempt s)
  | guard_drop (s : SysState α) (h : 0 < s.guards) :
      Step s { lock := MutexGuard.drop s.lock, guards := s.guards - 1 }

/-- Reachability of the full lock's system under `Step`. -/
inductive Reachable {α : Type} (init : SysState α) : SysState α → Prop where
  | refl : Reachable init init
  | step {s t : SysState α} : Reachable init s → Step s t → Reachable init t

/-- Invariant I3 for the full lock: the flag is set iff exactly one guard is
live, and clear iff no guard is live. -/
def flagGuardInv {α : Type} (s : SysState α) : Prop :=
  (s.lock.locked = true ↔ s.guards = 1) ∧
  (s.lock.locked = false ↔ s.guards = 0)

/-- Every step of the full lock preserves invariant I3. -/
theorem step_preserves_inv {α : Type} {s t : SysState α} (hst : Step s t)
    (hinv : flagGuardInv s) : flagGuardInv t := by
  obtain ⟨h1, h0⟩ := hinv
  cases hst with
  | try_lock_call =>
    cases hl : s.lock.locked
    · have hg : s.guards = 0 := h0.mp hl
      constructor <;>
        simp [flagGuardInv, Mutex.try_lock, MutexState.fetchOr, hl, hg]
    · have hg : s.guards = 1 := h1.mp hl
      constructor <;>
        simp [flagGuardInv, Mutex.try_lock, MutexState.fetchOr, hl, hg]
  | spin_lock_attempt =>
    cases hl : s.lock.locked
    · have hg : s.guards = 0 := h0.mp hl
      constructor <;>
        simp [flagGuardInv, acquireAttempt, MutexState.fetchOr, hl, hg]
    · have hg : s.guards = 1 := h1.mp hl
      constructor <;>
        simp [flagGuardInv, acquireAttempt, MutexState.fetchOr, hl, hg]
  | yield_lock_attempt =>
    cases hl : s.lock.locked
    · have hg : s.guards = 0 := h0.mp hl
      constructor <;>
        simp [flagGuardInv, acquireAttempt, MutexState.fetchOr, hl, hg]
    · have hg : s.guards = 1 := h1.mp hl
      constructor <;>
        simp [flagGuardInv, acquireAttempt, MutexState.fetchOr, hl, hg]
  | exp_backoff_lock_attempt =>
    cases hl : s.lock.locked
    · have hg : s.guards = 0 := h0.mp hl
      constructor <;>
        simp [flagGuardInv, acquireAttempt, MutexState.fetchOr, hl, hg]
    · have hg : s.guards = 1 := h1.mp hl
      constructor <;>
        simp [flagGuardInv, acquireAttempt, MutexState.fetchOr, hl, hg]
  | guard_drop h =>
    cases hl : s.lock.locked
    · have hg : s.guards = 0 := h0.mp hl
      omega
    · have hg : s.guards = 1 := h1.mp hl
      constructor <;>
        simp [flagGuardInv, MutexGuard.drop, MutexState.fetchAnd, hl, hg]

/-- Invariant I3 holds in every reachable state of the full lock, given it
holds initially. -/
theorem reachable_inv {α : Type} {init s : SysState α} (h : Reachable init s)
    (hinit : flagGuardInv init) : flagGuardInv s := by
  induction h with
  | refl => exact hinit
  | step _ hst ih => exact step_preserves_inv hst ih

/-- A reduced lock together with the number of currently live guards on it. -/
structure TrySysState (α : Type) where
  lock : TryMutexState α
  guards : Nat
deriving DecidableEq, Repr

/-- One atomic step of the reduced lock: a `try_lock` call or the destruction
of a live guard (the reduced variant exposes no blocking acquisition). -/
inductive TryStep {α : Type} : TrySysState α → TrySysState α → Prop where
  | try_lock_call (s : TrySysState α) :
      TryStep s { lock := (TryMutex.try_lock s.lock).2,
                  guards := if (TryMutex.try_lock s.lock).1.isSome then
                              s.guards + 1
                            else s.guards }
  | guard_drop (s : TrySysState α) (h : 0 < s.guards) :
      TryStep s { lock := TryMutexGuard.drop s.lock, guards := s.guards - 1 }

/-- Reachability of the reduced lock's system under `TryStep`. -/
inductive TryReachable {α : Type} (init : TrySysState α) :
    TrySysState α → Prop where
  | refl : TryReachable init init
  | step {s t : TrySysState α} :
      TryReachable init s → TryStep s t → TryReachable init t

/-- Invariant I3 for the reduced lock. -/
def tryFlagGuardInv {α : Type} (s : TrySysState α) : Prop :=
  (s.lock.locked = true ↔ s.guards = 1) ∧
  (s.lock.locked = false ↔ s.guards = 0)

/-- Every step of the reduced lock preserves invariant I3. -/
theorem try_step_preserves_inv {α : Type} {s t : TrySysState α}
    (hst : TryStep s t) (hinv : tryFlagGuardInv s) : tryFlagGuardInv t := by
  obtain ⟨h1, h0⟩ := hinv
  cases hst with
  | try_lock_call =>
    cases hl : s.lock.locked
    · have hg : s.guards = 0 := h0.mp hl
      constructor <;>
        simp [tryFlagGuardInv, TryMutex.try_lock, TryMutexState.fetchOr, hl,
          hg]
    · have hg : s.guards = 1 := h1.mp hl
      constructor <;>
        simp [tryFlagGuardInv, TryMutex.try_lock, TryMutexState.fetchOr, hl,
          hg]
  | guard_drop h =>
    cases hl : s.lock.locked
    · have hg : s.guards = 0 := h0.mp hl
      omega
    · have hg : s.guards = 1 := h1.mp hl
      constructor <;>
        simp [tryFlagGuardInv, TryMutexGuard.drop, TryMutexState.fetchAnd, hl,
          hg]

/-- Invariant I3 holds in every reachable state of the reduced lock, given it
holds initially. -/
theorem try_reachable_inv {α : Type} {init s : TrySysState α}
    (h : TryReachable init s) (hinit : tryFlagGuardInv init) :
    tryFlagGuardInv s := by
  induction h with
  | refl => exact hinit
  | step _ hst ih => exact try_step_preserves_inv hst ih

/-- Claim C1: for every lock instance (full or reduced) and every state
reachable from a freshly created lock under the step relation whose steps are
the acquisition operations (`spin_lock`, `yield_lock`, `exp_backoff_lock`,
`try_lock`) and guard destruction, the flag is set iff exactly one guard is
live and clear iff zero guards are live; hence at most one guard is ever live
per lock. -/
theorem flag_guard_invariant {α : Type} (v : α) (s : SysState α)
    (t : TrySysState α)
    (hs : Reachable { lock := Mutex.new v, guards := 0 } s)
    (ht : TryReachable { lock := TryMutex.new v, guards := 0 } t) :
    ((s.lock.locked = true ↔ s.guards = 1) ∧
     (s.lock.locked = false ↔ s.guards = 0) ∧ s.guards ≤ 1) ∧
    ((t.lock.locked = true ↔ t.guards = 1) ∧
     (t.lock.locked = false ↔ t.guards = 0) ∧ t.guards ≤ 1) := by
  have hinvs : flagGuardInv s :=
    reachable_inv hs (by constructor <;> simp [flagGuardInv, Mutex.new])
  have hinvt : tryFlagGuardInv t :=
    try_reachable_inv ht
      (by constructor <;> simp [tryFlagGuardInv, TryMutex.new])
  have hles : s.guards ≤ 1 := by
    cases hl : s.lock.locked
    · have := hinvs.2.mp hl
      omega
    · have := hinvs.1.mp hl
      omega
  have hlet : t.guards ≤ 1 := by
    cases hl : t.lock.locked
    · have := hinvt.2.mp hl
      omega
    · have := hinvt.1.mp hl
      omega
  exact ⟨⟨hinvs.1, hinvs.2, hles⟩, ⟨hinvt.1, hinvt.2, hlet⟩⟩

/-- Witness for C1 at concrete reachable states: the full lock after one
successful acquisition attempt (one live guard), the reduced lock freshly
created (no live guard). -/
theorem flag_guard_invariant_witness :
    ((({ lock := { locked := true, value := 0 }, guards := 1 } :
          SysState Nat).lock.locked = true ↔
      ({ lock := { locked := true, value := 0 }, guards := 1 } :
          SysState Nat).guards = 1) ∧
     (({ lock := { locked := true, value := 0 }, guards := 1 } :
          SysState Nat).lock.locked = false ↔
      ({ lock := { locked := true, value := 0 }, guards := 1 } :
          SysState Nat).guards = 0) ∧
     ({ lock := { locked := true, value := 0 }, guards := 1 } :
          SysState Nat).guards ≤ 1) ∧
    ((({ lock := TryMutex.new (0 : Nat), guards := 0 } :
          TrySysState Nat).lock.locked = true ↔
      ({ lock := TryMutex.new (0 : Nat), guards := 0 } :
          TrySysState Nat).guards = 1) ∧
     (({ lock := TryMutex.new (0 : Nat), guards := 0 } :
          TrySysState Nat).lock.locked = false ↔
      ({ lock := TryMutex.new (0 : Nat), guards := 0 } :
          TrySysState Nat).guards = 0) ∧
     ({ lock := TryMutex.new (0 : Nat), guards := 0 } :
          TrySysState Nat).guards ≤ 1) :=
  flag_guard_invariant 0
    { lock := { locked := true, value := 0 }, guards := 1 }
    { lock := TryMutex.new 0, guards := 0 }
    (Reachable.step Reachable.refl
      (Step.spin_lock_attempt { lock := Mutex.new 0, guards := 0 }))
    TryReachable.refl

end Currant
